import Mathlib

/-!
Shallow embedding of `src/dice_be/managers/connection.py` (class
`ConnectionManager`): a per-game registry mapping client ids (`ObjectId`)
to WebSocket handles, with `add_connection`, `disconnect`,
`remove_connection`, `send`, `broadcast` and `personal_broadcast`.

Modelling choices:
* `ObjectId` is modelled as `Nat` (an opaque comparable identifier).
* A Python `dict` is modelled as an association list with insertion-order
  semantics: insertion under an existing key overwrites in place, `del`
  removes the entry or raises `KeyError`.
* The transport (starlette `WebSocket`) is modelled by an environment
  assigning each physical socket a fixed outcome for `send_text` and
  `close`; performed writes and closes are recorded in a `World` log.
* `asyncio.gather(..., return_exceptions=False)` schedules every
  coroutine as a task and does not cancel siblings when one fails, so
  every dispatched send runs to completion and performs its effect; the
  gather call itself propagates one failing send's exception verbatim.
  We model this by running all sends in iteration order, accumulating
  their effects, and returning the first error as the aggregate result.
* Each method is a function of the manager state returning the new state
  explicitly, so frame properties about the registry are statable.
-/

set_option autoImplicit false

namespace DiceBe

/-- JSON values, the shape of a Python `dict` payload. -/
inductive JsonVal where
  | null
  | bool (b : Bool)
  | num (n : Int)
  | str (s : String)
  | arr (xs : List JsonVal)
  | obj (fields : List (String × JsonVal))

mutual

/-- Python `json.dumps` with default separators: a deterministic canonical text
serialization of a JSON value. -/
def JsonVal.dumps : JsonVal → String
  | .null => "null"
  | .bool true => "true"
  | .bool false => "false"
  | .num n => toString n
  | .str s => "\"" ++ s ++ "\""
  | .arr xs => "[" ++ JsonVal.dumpsList xs ++ "]"
  | .obj fields => "\x7b" ++ JsonVal.dumpsFields fields ++ "\x7d"

/-- Serialize the elements of a JSON array, comma separated. -/
def JsonVal.dumpsList : List JsonVal → String
  | [] => ""
  | [x] => JsonVal.dumps x
  | x :: y :: rest => JsonVal.dumps x ++ ", " ++ JsonVal.dumpsList (y :: rest)

/-- Serialize the fields of a JSON object, comma separated. -/
def JsonVal.dumpsFields : List (String × JsonVal) → String
  | [] => ""
  | [(k, v)] => "\"" ++ k ++ "\": " ++ JsonVal.dumps v
  | (k, v) :: f :: rest =>
      "\"" ++ k ++ "\": " ++ JsonVal.dumps v ++ ", " ++ JsonVal.dumpsFields (f :: rest)

end

/-- A runtime Python value as it reaches `WebSocket.send_text`: either a
text string, or some object of any other shape (Python does not enforce
the `str | dict | BaseModel` annotation on `send`). -/
inductive PyVal where
  | str (s : String)
  | obj (tag : Nat)
  deriving DecidableEq

/-- A transport-level error raised by the WebSocket library on a failed
write or close. -/
inductive TErr where
  | terr (msg : String)
  deriving DecidableEq

/-- The Python exceptions the manager's operations can raise:
`KeyError` from a plain mapping miss, the `LookupError` that `send`
raises `from` the `KeyError` when the client is not connected, and
transport errors propagating from the WebSocket. -/
inductive PyErr where
  | keyError (key : Nat)
  | lookupError (client : Nat) (cause : Nat)
  | transportError (e : TErr)
  deriving DecidableEq

/-- A starlette WebSocket handle; `sockId` identifies the physical
connection. -/
structure WebSocket where
  sockId : Nat
  deriving DecidableEq

/-- From `dice_be.models.users`, the `User` model: the fields `ConnectionManager` touches. -/
structure User where
  id : Nat
  name : String
  deriving DecidableEq

/-- From `dice_be.models.games`, the `PlayerData` model: the fields used here (an id and
the per-player context the payload factory consumes). -/
structure PlayerData where
  id : Nat
  ctx : String
  deriving DecidableEq

/-- A pydantic `BaseModel` payload; `.json()` is its deterministic
serialization. -/
structure BaseModel where
  fields : List (String × JsonVal)

/-- Pydantic `BaseModel.json()`: pydantic's deterministic JSON serialization of
the record. -/
def BaseModel.json (m : BaseModel) : String :=
  JsonVal.dumps (.obj m.fields)

/-- The `client` argument of `send`: `User | PlayerData | ObjectId`. -/
inductive Client where
  | user (u : User)
  | player (p : PlayerData)
  | oid (i : Nat)
  deriving DecidableEq

/-- Mirrors `if isinstance(client, (User, PlayerData)): client = client.id`. -/
def Client.resolveId : Client → Nat
  | .user u => u.id
  | .player p => p.id
  | .oid i => i

/-- The `data` argument of `send`/`broadcast`: annotated
`str | dict | BaseModel`, but Python does not enforce the annotation, so
a value of any other shape can also be passed. -/
inductive Payload where
  | text (s : String)
  | dict (fields : List (String × JsonVal))
  | model (m : BaseModel)
  | other (v : PyVal)

/-- The encode step at the top of `send`: a `dict` goes through
`json.dumps`, a `BaseModel` through `.json()`, and anything else — text
included — is passed on unchanged. -/
def Payload.encode : Payload → PyVal
  | .text s => .str s
  | .dict fields => .str (JsonVal.dumps (.obj fields))
  | .model m => .str m.json
  | .other v => v

/-- Python-dict lookup on an association list. -/
def dictGet (k : Nat) : List (Nat × WebSocket) → Option WebSocket
  | [] => none
  | (k', v) :: rest => if k' = k then some v else dictGet k rest

/-- Python-dict assignment: overwrite in place if the key exists,
otherwise append (insertion order preserved). -/
def dictInsert (k : Nat) (v : WebSocket) : List (Nat × WebSocket) → List (Nat × WebSocket)
  | [] => [(k, v)]
  | (k', v') :: rest =>
      if k' = k then (k, v) :: rest else (k', v') :: dictInsert k v rest

/-- Python-dict `del`: remove the entry for `k` (the caller checks
presence; on an absent key the Python statement raises `KeyError`). -/
def dictDel (k : Nat) : List (Nat × WebSocket) → List (Nat × WebSocket)
  | [] => []
  | (k', v) :: rest => if k' = k then rest else (k', v) :: dictDel k rest

/-- Lookup on the caller-supplied `player_mapping` dict. -/
def pmGet (k : Nat) : List (Nat × PlayerData) → Option PlayerData
  | [] => none
  | (k', v) :: rest => if k' = k then some v else pmGet k rest

/-- Total lookup on `player_mapping`, with a default; in the statements
below it is only consulted under a hypothesis that makes every lookup a
hit, so the default is never reached. -/
def pmLookup (pm : List (Nat × PlayerData)) (cid : Nat) : PlayerData :=
  (pmGet cid pm).getD ⟨0, ""⟩

/-- The transport environment: the fixed outcome of `send_text` and
`close` on each physical socket (`none` = succeeds, `some e` = raises
the transport error `e`). -/
structure Env where
  sendBeh : Nat → Option TErr
  closeBeh : Nat → Option TErr

/-- The observable transport history: every attempted write
`(socket, data, succeeded)` and every close call, in order. -/
structure World where
  sendLog : List (Nat × PyVal × Bool)
  closeLog : List Nat
  deriving DecidableEq

/-- Starlette `WebSocket.send_text(data)`: attempts one write on the socket; the
attempt is recorded, and a transport failure raises. -/
def WebSocket.send_text (ws : WebSocket) (env : Env) (w : World) (data : PyVal) :
    World × Except PyErr Unit :=
  match env.sendBeh ws.sockId with
  | none => ({ w with sendLog := w.sendLog ++ [(ws.sockId, data, true)] }, .ok ())
  | some e => ({ w with sendLog := w.sendLog ++ [(ws.sockId, data, false)] },
      .error (.transportError e))

/-- Starlette `WebSocket.close()`: one close call on the socket; a transport
failure raises. -/
def WebSocket.close (ws : WebSocket) (env : Env) (w : World) :
    World × Except PyErr Unit :=
  match env.closeBeh ws.sockId with
  | none => ({ w with closeLog := w.closeLog ++ [ws.sockId] }, .ok ())
  | some e => ({ w with closeLog := w.closeLog ++ [ws.sockId] }, .error (.transportError e))

/-- The `ConnectionManager` state: `self.connections : dict[ObjectId, WebSocket]`. -/
structure ConnectionManager where
  connections : List (Nat × WebSocket)
  deriving DecidableEq

namespace ConnectionManager

/-- The constructor `ConnectionManager()`: an empty registry. -/
def empty : ConnectionManager := ⟨[]⟩

/-- Method `add_connection`: `self.connections[client.id] = connection`. Never
fails; overwrites an existing entry. -/
def add_connection (cm : ConnectionManager) (client : User) (connection : WebSocket) :
    ConnectionManager :=
  ⟨dictInsert client.id connection cm.connections⟩

/-- Method `disconnect`: `await self.connections[client.id].close()`. A missing
key raises `KeyError`; otherwise one close call is made. The method
contains no `del`: the registry is returned unchanged in every case. -/
def disconnect (cm : ConnectionManager) (env : Env) (w : World) (client : User) :
    ConnectionManager × World × Except PyErr Unit :=
  match dictGet client.id cm.connections with
  | none => (cm, w, .error (.keyError client.id))
  | some ws =>
      let (w', r) := ws.close env w
      (cm, w', r)

/-- Method `remove_connection`: `del self.connections[client.id]`, raising
`KeyError` if absent. -/
def remove_connection (cm : ConnectionManager) (client : User) :
    Except PyErr ConnectionManager :=
  match dictGet client.id cm.connections with
  | none => .error (.keyError client.id)
  | some _ => .ok ⟨dictDel client.id cm.connections⟩

/-- Method `send`: encode the payload, resolve the client to an id, then
`await self.connections[client].send_text(data)` inside a
`try/except KeyError` that re-raises `LookupError(...) from e`. The
registry itself is never mutated. -/
def send (cm : ConnectionManager) (env : Env) (w : World) (client : Client)
    (data : Payload) : ConnectionManager × World × Except PyErr Unit :=
  let d := data.encode
  let cid := client.resolveId
  match dictGet cid cm.connections with
  | none => (cm, w, .error (.lookupError cid cid))
  | some ws =>
      let (w', r) := ws.send_text env w d
      (cm, w', r)

/-- The effect of `asyncio.gather(..., return_exceptions=False)` over
one `self.send(client_id, payload)` coroutine per listed target: every
dispatched send runs to completion (siblings are not cancelled when one
fails), and the aggregate result is the first error. -/
def gatherSends (cm : ConnectionManager) (env : Env) :
    World → List (Nat × Payload) → World × Except PyErr Unit
  | w, [] => (w, .ok ())
  | w, (cid, p) :: rest =>
      let (_, w', r) := cm.send env w (.oid cid) p
      let (w'', r') := gatherSends cm env w' rest
      (w'', match r with | .ok _ => r' | .error e => .error e)

/-- Mirrors `exclude_ids = {exclude.id} if exclude else {}`. -/
def excludeIdsOf : Option User → List Nat
  | some u => [u.id]
  | none => []

/-- Method `broadcast`: gather one `send` per registered id not in
`exclude_ids`, iterating the registry in insertion order. -/
def broadcast (cm : ConnectionManager) (env : Env) (w : World) (data : Payload)
    (exclude : Option User) : ConnectionManager × World × Except PyErr Unit :=
  let targets := cm.connections.filter (fun kv => ¬ kv.1 ∈ excludeIdsOf exclude)
  let (w', r) := gatherSends cm env w (targets.map (fun kv => (kv.1, data)))
  (cm, w', r)

/-- Argument evaluation during the `*`-unpacking of the generator in
`personal_broadcast`: every `data_factory(player_mapping[client_id])` is
evaluated eagerly, in registry order, before any send coroutine runs; a
mapping miss raises `KeyError` immediately and no send is dispatched. -/
def buildArgs (data_factory : PlayerData → Payload) (pm : List (Nat × PlayerData)) :
    List (Nat × WebSocket) → Except PyErr (List (Nat × Payload))
  | [] => .ok []
  | (cid, _) :: rest =>
      match pmGet cid pm with
      | none => .error (.keyError cid)
      | some pd =>
          match buildArgs data_factory pm rest with
          | .error e => .error e
          | .ok args => .ok ((cid, data_factory pd) :: args)

/-- Method `personal_broadcast`: gather one `send(client_id,
data_factory(player_mapping[client_id]))` per registered id. The
generator is unpacked eagerly, so a `player_mapping` miss raises
`KeyError` before any send runs. -/
def personal_broadcast (cm : ConnectionManager) (env : Env) (w : World)
    (data_factory : PlayerData → Payload) (player_mapping : List (Nat × PlayerData)) :
    ConnectionManager × World × Except PyErr Unit :=
  match buildArgs data_factory player_mapping cm.connections with
  | .error e => (cm, w, .error e)
  | .ok args =>
      let (w', r) := gatherSends cm env w args
      (cm, w', r)

/-- The log entries one `send(client_id, payload)` appends: one attempted
write on the registered socket, nothing when the id is absent. -/
def sendEntry (cm : ConnectionManager) (env : Env) (cid : Nat) (p : Payload) :
    List (Nat × PyVal × Bool) :=
  match dictGet cid cm.connections with
  | none => []
  | some ws => [(ws.sockId, p.encode, (env.sendBeh ws.sockId).isNone)]

/-- The result of one `send(client_id, _)`: a lookup miss, a transport
failure, or success. -/
def sendOutcome (cm : ConnectionManager) (env : Env) (cid : Nat) : Except PyErr Unit :=
  match dictGet cid cm.connections with
  | none => .error (.lookupError cid cid)
  | some ws =>
      match env.sendBeh ws.sockId with
      | none => .ok ()
      | some e => .error (.transportError e)

/-- The aggregate result of a gather: `ok` when every send succeeded,
otherwise the first error. -/
def firstErr : List (Except PyErr Unit) → Except PyErr Unit
  | [] => .ok ()
  | .ok _ :: rest => firstErr rest
  | .error e :: _ => .error e

end ConnectionManager

/-- A registry lifecycle operation: `add_connection` (register) or
`remove_connection` (unregister). -/
inductive Op where
  | reg (u : User) (ws : WebSocket)
  | unreg (u : User)

/-- Replay a sequence of operations through the implementation's
`add_connection` / `remove_connection`, stopping at the first failure
(as the raised `KeyError` would abort a Python caller). -/
def replay : ConnectionManager → List Op → Except PyErr ConnectionManager
  | cm, [] => .ok cm
  | cm, .reg u ws :: rest => replay (cm.add_connection u ws) rest
  | cm, .unreg u :: rest =>
      match cm.remove_connection u with
      | .error e => .error e
      | .ok cm' => replay cm' rest

/-- Modelled from the spec: the net-effect reference semantics over
abstract partial maps — register inserts or overwrites the single entry
for the identity (last write wins), unregister removes the entry or
fails if the identity is absent. -/
def netApply (m : Nat → Option WebSocket) : Op → Except PyErr (Nat → Option WebSocket)
  | .reg u ws => .ok (fun k => if k = u.id then some ws else m k)
  | .unreg u =>
      match m u.id with
      | none => .error (.keyError u.id)
      | some _ => .ok (fun k => if k = u.id then none else m k)

/-- Replay under the net-effect reference semantics. -/
def netReplay : (Nat → Option WebSocket) → List Op → Except PyErr (Nat → Option WebSocket)
  | m, [] => .ok m
  | m, op :: rest =>
      match netApply m op with
      | .error e => .error e
      | .ok m' => netReplay m' rest

/-- The implementation replay refines the net-effect replay: both fail
together (with the same error), or both succeed with pointwise-equal
membership and at most one registry entry per identity. -/
def agrees : Except PyErr ConnectionManager → Except PyErr (Nat → Option WebSocket) → Prop
  | .ok cm, .ok m =>
      (∀ k, dictGet k cm.connections = m k) ∧ (cm.connections.map Prod.fst).Nodup
  | .error e, .error e' => e = e'
  | _, _ => False

namespace ConnectionManager

theorem send_oid (cm : ConnectionManager) (env : Env) (w : World) (cid : Nat)
    (p : Payload) :
    cm.send env w (.oid cid) p =
      (cm, { w with sendLog := w.sendLog ++ sendEntry cm env cid p },
        sendOutcome cm env cid) := by
  simp only [send, sendEntry, sendOutcome, Client.resolveId]
  cases dictGet cid cm.connections with
  | none => simp
  | some ws => cases h : env.sendBeh ws.sockId <;> simp [WebSocket.send_text, h]

theorem gatherSends_eq (cm : ConnectionManager) (env : Env) :
    ∀ (args : List (Nat × Payload)) (w : World),
    cm.gatherSends env w args =
      ({ w with sendLog := w.sendLog ++ args.flatMap (fun cp => sendEntry cm env cp.1 cp.2) },
        firstErr (args.map (fun cp => sendOutcome cm env cp.1))) := by
  intro args
  induction args with
  | nil => intro w; simp [gatherSends, firstErr]
  | cons cp rest ih =>
      intro w
      obtain ⟨cid, p⟩ := cp
      simp only [gatherSends, send_oid, ih, List.flatMap_cons, List.map_cons]
      cases h : sendOutcome cm env cid <;> simp [firstErr, h]

end ConnectionManager

/-- Lookup after `dictInsert` at the inserted key. -/
theorem dictGet_dictInsert_self (k : Nat) (v : WebSocket) (l : List (Nat × WebSocket)) :
    dictGet k (dictInsert k v l) = some v := by
  induction l with
  | nil => simp [dictInsert, dictGet]
  | cons kv rest ih =>
      obtain ⟨k', v'⟩ := kv
      by_cases h : k' = k <;> simp [dictInsert, dictGet, h, ih]

/-- Lookup after `dictInsert` at a different key. -/
theorem dictGet_dictInsert_ne (k j : Nat) (v : WebSocket) (l : List (Nat × WebSocket))
    (h : k ≠ j) : dictGet j (dictInsert k v l) = dictGet j l := by
  induction l with
  | nil => simp [dictInsert, dictGet, h]
  | cons kv rest ih =>
      obtain ⟨k', v'⟩ := kv
      by_cases h' : k' = k
      · subst h'
        simp [dictInsert, dictGet, h]
      · by_cases h'' : k' = j <;> simp [dictInsert, dictGet, h', h'', ih, Ne.symm h]

/-- A key is in the inserted dict iff it is the new key or was present. -/
theorem mem_keys_dictInsert (k j : Nat) (v : WebSocket) (l : List (Nat × WebSocket)) :
    j ∈ (dictInsert k v l).map Prod.fst ↔ j = k ∨ j ∈ l.map Prod.fst := by
  induction l with
  | nil => simp [dictInsert]
  | cons kv rest ih =>
      obtain ⟨k', v'⟩ := kv
      by_cases h : k' = k
      · subst h
        simp [dictInsert]
      · simp only [dictInsert, if_neg h, List.map_cons, List.mem_cons, ih]
        tauto

/-- Insertion preserves distinctness of keys. -/
theorem nodup_dictInsert (k : Nat) (v : WebSocket) (l : List (Nat × WebSocket))
    (h : (l.map Prod.fst).Nodup) : ((dictInsert k v l).map Prod.fst).Nodup := by
  induction l with
  | nil => simp [dictInsert]
  | cons kv rest ih =>
      obtain ⟨k', v'⟩ := kv
      simp only [List.map_cons, List.nodup_cons] at h
      by_cases hk : k' = k
      · subst hk
        simpa [dictInsert] using h
      · simp only [dictInsert, if_neg hk, List.map_cons, List.nodup_cons]
        refine ⟨?_, ih h.2⟩
        rw [mem_keys_dictInsert]
        rintro (rfl | hmem)
        · exact hk rfl
        · exact h.1 hmem

/-- Deletion yields a sublist. -/
theorem dictDel_sublist (k : Nat) (l : List (Nat × WebSocket)) :
    (dictDel k l).Sublist l := by
  induction l with
  | nil => simp [dictDel]
  | cons kv rest ih =>
      obtain ⟨k', v'⟩ := kv
      by_cases h : k' = k
      · simp only [dictDel, if_pos h]
        exact List.sublist_cons_self _ _
      · simpa [dictDel, h] using ih.cons₂ (k', v')

/-- Deletion preserves distinctness of keys. -/
theorem nodup_dictDel (k : Nat) (l : List (Nat × WebSocket))
    (h : (l.map Prod.fst).Nodup) : ((dictDel k l).map Prod.fst).Nodup :=
  h.sublist ((dictDel_sublist k l).map Prod.fst)

/-- A key absent from the key list never resolves. -/
theorem dictGet_eq_none_of_not_mem (k : Nat) (l : List (Nat × WebSocket))
    (h : k ∉ l.map Prod.fst) : dictGet k l = none := by
  induction l with
  | nil => rfl
  | cons kv rest ih =>
      obtain ⟨k', v'⟩ := kv
      simp only [List.map_cons, List.mem_cons] at h
      push_neg at h
      simp [dictGet, Ne.symm h.1, ih h.2]

/-- Lookup after `dictDel`, under distinct keys. -/
theorem dictGet_dictDel (k j : Nat) (l : List (Nat × WebSocket))
    (h : (l.map Prod.fst).Nodup) :
    dictGet j (dictDel k l) = if k = j then none else dictGet j l := by
  induction l with
  | nil => simp [dictDel, dictGet]
  | cons kv rest ih =>
      obtain ⟨k', v'⟩ := kv
      simp only [List.map_cons, List.nodup_cons] at h
      by_cases hk : k' = k
      · subst hk
        by_cases hj : k' = j
        · subst hj
          simp [dictDel, dictGet_eq_none_of_not_mem _ _ h.1]
        · simp [dictDel, dictGet, hj]
      · by_cases hj : k' = j
        · subst hj
          simp [dictDel, hk, dictGet, Ne.symm hk]
        · simp [dictDel, hk, dictGet, hj, ih h.2]

/-- A successful lookup comes from an entry of the list. -/
theorem mem_of_dictGet (k : Nat) (v : WebSocket) (l : List (Nat × WebSocket))
    (h : dictGet k l = some v) : (k, v) ∈ l := by
  induction l with
  | nil => simp [dictGet] at h
  | cons kv rest ih =>
      obtain ⟨k', v'⟩ := kv
      by_cases hk : k' = k
      · subst hk
        simp [dictGet] at h
        subst h
        exact List.mem_cons_self _ _
      · simp only [dictGet, if_neg hk] at h
        exact List.mem_cons_of_mem _ (ih h)

/-- Under distinct keys, every entry is found by lookup. -/
theorem dictGet_of_mem_nodup (k : Nat) (v : WebSocket) (l : List (Nat × WebSocket))
    (hnd : (l.map Prod.fst).Nodup) (h : (k, v) ∈ l) : dictGet k l = some v := by
  induction l with
  | nil => simp at h
  | cons kv rest ih =>
      obtain ⟨k', v'⟩ := kv
      simp only [List.map_cons, List.nodup_cons] at hnd
      rcases List.mem_cons.mp h with h1 | h1
      · simp only [Prod.mk.injEq] at h1
        obtain ⟨rfl, rfl⟩ := h1.symm
        simp [dictGet]
      · have : k' ≠ k := by
          rintro rfl
          exact hnd.1 (List.mem_map.mpr ⟨(k', v), h1, rfl⟩)
        simp [dictGet, this, ih hnd.2 h1]

namespace ConnectionManager

theorem broadcast_unfold (cm : ConnectionManager) (env : Env) (w : World)
    (data : Payload) (exclude : Option User) :
    cm.broadcast env w data exclude =
      (cm,
        { w with sendLog := w.sendLog ++ ((cm.connections.filter (fun kv => ¬ kv.1 ∈ excludeIdsOf exclude)).flatMap (fun kv => sendEntry cm env kv.1 data)) },
        firstErr ((cm.connections.filter (fun kv => ¬ kv.1 ∈ excludeIdsOf exclude)).map
          (fun kv => sendOutcome cm env kv.1))) := by
  simp only [broadcast, gatherSends_eq, List.flatMap_map, List.map_map]
  rfl

theorem personal_broadcast_of_buildArgs_ok (cm : ConnectionManager) (env : Env)
    (w : World) (f : PlayerData → Payload) (pm : List (Nat × PlayerData))
    (args : List (Nat × Payload)) (h : buildArgs f pm cm.connections = .ok args) :
    cm.personal_broadcast env w f pm =
      (cm,
        { w with sendLog := w.sendLog ++ (args.flatMap (fun cp => sendEntry cm env cp.1 cp.2)) },
        firstErr (args.map (fun cp => sendOutcome cm env cp.1))) := by
  simp [personal_broadcast, h, gatherSends_eq]

theorem personal_broadcast_of_buildArgs_err (cm : ConnectionManager) (env : Env)
    (w : World) (f : PlayerData → Payload) (pm : List (Nat × PlayerData))
    (e : PyErr) (h : buildArgs f pm cm.connections = .error e) :
    cm.personal_broadcast env w f pm = (cm, w, .error e) := by
  simp [personal_broadcast, h]

/-- When every registered id has a context, the eager argument
evaluation succeeds and pairs each id with its own payload. -/
theorem buildArgs_ok (f : PlayerData → Payload) (pm : List (Nat × PlayerData)) :
    ∀ (l : List (Nat × WebSocket)), (∀ kv ∈ l, (pmGet kv.1 pm).isSome) →
    buildArgs f pm l = .ok (l.map (fun kv => (kv.1, f (pmLookup pm kv.1)))) := by
  intro l
  induction l with
  | nil => intro _; rfl
  | cons kv rest ih =>
      intro h
      obtain ⟨cid, ws⟩ := kv
      have hhead : (pmGet cid pm).isSome := h _ (List.mem_cons_self _ _)
      obtain ⟨pd, hpd⟩ := Option.isSome_iff_exists.mp hhead
      have htail := ih (fun kv hkv => h kv (List.mem_cons_of_mem _ hkv))
      simp [buildArgs, hpd, htail, pmLookup]

/-- A registered id without a context makes the eager argument
evaluation fail with `KeyError` at the first such id. -/
theorem buildArgs_err (f : PlayerData → Payload) (pm : List (Nat × PlayerData)) :
    ∀ (l : List (Nat × WebSocket)), (∃ kv ∈ l, pmGet kv.1 pm = none) →
    ∃ c, c ∈ l.map Prod.fst ∧ pmGet c pm = none ∧
      buildArgs f pm l = .error (.keyError c) := by
  intro l
  induction l with
  | nil => rintro ⟨kv, hmem, _⟩; simp at hmem
  | cons kv rest ih =>
      rintro ⟨kv', hmem, hnone⟩
      obtain ⟨cid, ws⟩ := kv
      by_cases hc : pmGet cid pm = none
      · exact ⟨cid, by simp, hc, by simp [buildArgs, hc]⟩
      · obtain ⟨pd, hpd⟩ := Option.ne_none_iff_exists'.mp hc
        have hmem' : kv' ∈ rest := by
          rcases List.mem_cons.mp hmem with rfl | h'
          · exact absurd hnone hc
          · exact h'
        obtain ⟨c, hcmem, hcnone, heq⟩ := ih ⟨kv', hmem', hnone⟩
        refine ⟨c, by simp [hcmem], hcnone, ?_⟩
        simp [buildArgs, hpd, heq]

end ConnectionManager

/-- Writes issued to a sub-collection of a distinct-keyed registry: one
attempted write per target, carrying the encoded payload. -/
theorem flatMap_sendEntry (cm : ConnectionManager) (env : Env) (data : Payload)
    (sub : List (Nat × WebSocket))
    (hnd : (cm.connections.map Prod.fst).Nodup)
    (hsub : ∀ kv ∈ sub, kv ∈ cm.connections) :
    sub.flatMap (fun kv => ConnectionManager.sendEntry cm env kv.1 data) =
      sub.map (fun kv => (kv.2.sockId, data.encode, (env.sendBeh kv.2.sockId).isNone)) := by
  induction sub with
  | nil => rfl
  | cons kv rest ih =>
      have hget := dictGet_of_mem_nodup kv.1 kv.2 cm.connections hnd
        (by simpa using hsub kv (List.mem_cons_self _ _))
      have htail := ih (fun kv' hkv' => hsub kv' (List.mem_cons_of_mem _ hkv'))
      rw [List.flatMap_cons, htail, List.map_cons]
      simp [ConnectionManager.sendEntry, hget]

/-- Outcomes of sends to a sub-collection of a distinct-keyed registry:
per target, success or the transport error assigned to its socket. -/
theorem map_sendOutcome (cm : ConnectionManager) (env : Env)
    (sub : List (Nat × WebSocket))
    (hnd : (cm.connections.map Prod.fst).Nodup)
    (hsub : ∀ kv ∈ sub, kv ∈ cm.connections) :
    sub.map (fun kv => ConnectionManager.sendOutcome cm env kv.1) =
      sub.map (fun kv =>
        match env.sendBeh kv.2.sockId with
        | none => Except.ok ()
        | some e => Except.error (.transportError e)) := by
  induction sub with
  | nil => rfl
  | cons kv rest ih =>
      have hget := dictGet_of_mem_nodup kv.1 kv.2 cm.connections hnd
        (by simpa using hsub kv (List.mem_cons_self _ _))
      have htail := ih (fun kv' hkv' => hsub kv' (List.mem_cons_of_mem _ hkv'))
      rw [List.map_cons, List.map_cons, htail]
      simp [ConnectionManager.sendOutcome, hget]

/-- A gather whose sends all succeed reports success. -/
theorem firstErr_ok (l : List (Except PyErr Unit)) (h : ∀ r ∈ l, r = .ok ()) :
    ConnectionManager.firstErr l = .ok () := by
  induction l with
  | nil => rfl
  | cons r rest ih =>
      have hr := h r (List.mem_cons_self _ _)
      subst hr
      exact ih (fun r' hr' => h r' (List.mem_cons_of_mem _ hr'))

/-- A gather whose sends all succeed or fail with one same error `E`,
with at least one failure, reports `E`. -/
theorem firstErr_error (E : PyErr) (l : List (Except PyErr Unit))
    (h : ∀ r ∈ l, r = .ok () ∨ r = .error E) (hmem : Except.error E ∈ l) :
    ConnectionManager.firstErr l = .error E := by
  induction l with
  | nil => simp at hmem
  | cons r rest ih =>
      rcases h r (List.mem_cons_self _ _) with hr | hr
      · subst hr
        have hmem' : Except.error E ∈ rest := by
          rcases List.mem_cons.mp hmem with h' | h'
          · exact absurd h'.symm (by simp)
          · exact h'
        exact ih (fun r' hr' => h r' (List.mem_cons_of_mem _ hr')) hmem'
      · subst hr
        rfl

/-- Filtering out an absent key is the identity. -/
theorem filter_keys_ne_of_not_mem (xid : Nat) (l : List (Nat × WebSocket))
    (h : xid ∉ l.map Prod.fst) :
    l.filter (fun kv => decide (kv.1 ≠ xid)) = l := by
  rw [List.filter_eq_self]
  intro kv hkv
  simp only [decide_eq_true_eq]
  intro hkv1
  exact h (List.mem_map.mpr ⟨kv, hkv, hkv1⟩)

/-- Filtering out one present key of a distinct-keyed registry drops
exactly one entry. -/
theorem length_filter_keys_ne (xid : Nat) (l : List (Nat × WebSocket))
    (hnd : (l.map Prod.fst).Nodup) (hmem : xid ∈ l.map Prod.fst) :
    (l.filter (fun kv => decide (kv.1 ≠ xid))).length + 1 = l.length := by
  induction l with
  | nil => simp at hmem
  | cons kv rest ih =>
      simp only [List.map_cons, List.nodup_cons] at hnd
      by_cases hk : kv.1 = xid
      · subst hk
        have h1 : List.filter (fun kv1 => decide (kv1.1 ≠ kv.1)) (kv :: rest)
            = List.filter (fun kv1 => decide (kv1.1 ≠ kv.1)) rest := by
          rw [List.filter_cons]
          simp
        rw [h1, filter_keys_ne_of_not_mem _ _ hnd.1]
        simp
      · have hmem' : xid ∈ rest.map Prod.fst := by
          rcases List.mem_cons.mp hmem with h' | h'
          · exact absurd h'.symm hk
          · exact h'
        have hih := ih hnd.2 hmem'
        rw [List.filter_cons]
        have hcond : (decide (kv.1 ≠ xid)) = true := by simp [hk]
        rw [hcond]
        simp only [if_true, List.length_cons]
        omega

/-- Writes issued when each target of a sub-collection of a
distinct-keyed registry carries its own payload. -/
theorem flatMap_sendEntry_perTarget (cm : ConnectionManager) (env : Env)
    (g : Nat × WebSocket → Payload) (sub : List (Nat × WebSocket))
    (hnd : (cm.connections.map Prod.fst).Nodup)
    (hsub : ∀ kv ∈ sub, kv ∈ cm.connections) :
    (sub.map (fun kv => (kv.1, g kv))).flatMap
        (fun cp => ConnectionManager.sendEntry cm env cp.1 cp.2) =
      sub.map (fun kv => (kv.2.sockId, (g kv).encode, (env.sendBeh kv.2.sockId).isNone)) := by
  induction sub with
  | nil => rfl
  | cons kv rest ih =>
      have hget := dictGet_of_mem_nodup kv.1 kv.2 cm.connections hnd
        (by simpa using hsub kv (List.mem_cons_self _ _))
      have htail := ih (fun kv' hkv' => hsub kv' (List.mem_cons_of_mem _ hkv'))
      rw [List.map_cons, List.flatMap_cons, htail, List.map_cons]
      simp [ConnectionManager.sendEntry, hget]

/-- Outcomes when each target of a sub-collection of a distinct-keyed
registry carries its own payload. -/
theorem map_sendOutcome_perTarget (cm : ConnectionManager) (env : Env)
    (g : Nat × WebSocket → Payload) (sub : List (Nat × WebSocket))
    (hnd : (cm.connections.map Prod.fst).Nodup)
    (hsub : ∀ kv ∈ sub, kv ∈ cm.connections) :
    (sub.map (fun kv => (kv.1, g kv))).map
        (fun cp => ConnectionManager.sendOutcome cm env cp.1) =
      sub.map (fun kv =>
        match env.sendBeh kv.2.sockId with
        | none => Except.ok ()
        | some e => Except.error (PyErr.transportError e)) := by
  rw [List.map_map]
  exact map_sendOutcome cm env sub hnd hsub

/-- C1 counterexample: `disconnect` on a registered identity closes the
channel (exactly one close, and it succeeds here) but does NOT remove
the identity's entry from the registry — the method body is only
`await self.connections[client.id].close()`, with no `del` — refuting
the claim that disconnect "removes that identity's entry". -/
theorem disconnect_keeps_entry_counterexample :
    ((ConnectionManager.mk [(1, ⟨10⟩)]).disconnect ⟨fun _ => none, fun _ => none⟩
        ⟨[], []⟩ ⟨1, "A"⟩).2.2 = .ok ()
  ∧ ((ConnectionManager.mk [(1, ⟨10⟩)]).disconnect ⟨fun _ => none, fun _ => none⟩
        ⟨[], []⟩ ⟨1, "A"⟩).2.1.closeLog = [10]
  ∧ dictGet 1 ((ConnectionManager.mk [(1, ⟨10⟩)]).disconnect ⟨fun _ => none, fun _ => none⟩
        ⟨[], []⟩ ⟨1, "A"⟩).1.connections = some ⟨10⟩ :=
  ⟨rfl, rfl, rfl⟩

/-- C1 (amended): for every registered identity, `disconnect` invokes
the channel's close operation exactly once — whether close succeeds or
fails — performs no writes, and leaves the registry unchanged: the
entry is NOT removed (removal is the separate `remove_connection`). -/
theorem disconnect_closes_once_keeps_entry (cm : ConnectionManager) (env : Env)
    (w : World) (u : User) (ws : WebSocket)
    (h : dictGet u.id cm.connections = some ws) :
    (cm.disconnect env w u).1 = cm
  ∧ (cm.disconnect env w u).2.1.closeLog = w.closeLog ++ [ws.sockId]
  ∧ (cm.disconnect env w u).2.1.sendLog = w.sendLog
  ∧ dictGet u.id (cm.disconnect env w u).1.connections = some ws := by
  cases hc : env.closeBeh ws.sockId <;>
    simp [ConnectionManager.disconnect, h, WebSocket.close, hc]

/-- Witness for C1 (amended) at a concrete registered identity. -/
theorem disconnect_closes_once_keeps_entry_witness :
    ((ConnectionManager.mk [(1, ⟨10⟩)]).disconnect ⟨fun _ => none, fun _ => none⟩
        ⟨[], []⟩ ⟨1, "A"⟩).1 = ConnectionManager.mk [(1, ⟨10⟩)] :=
  (disconnect_closes_once_keeps_entry (ConnectionManager.mk [(1, ⟨10⟩)])
    ⟨fun _ => none, fun _ => none⟩ ⟨[], []⟩ ⟨1, "A"⟩ ⟨10⟩ rfl).1

/-- C3: `send` to an identity absent from the registry fails with the
`LookupError` ("NotConnected") raised `from` the mapping miss, leaving
the transport history untouched (no write); a transport failure on a
registered identity instead propagates as the transport error. -/
theorem send_absent_vs_transport (cm : ConnectionManager) (env : Env) (w : World)
    (client : Client) (data : Payload) :
    (dictGet client.resolveId cm.connections = none →
      cm.send env w client data
        = (cm, w, .error (.lookupError client.resolveId client.resolveId)))
  ∧ (∀ ws e, dictGet client.resolveId cm.connections = some ws →
      env.sendBeh ws.sockId = some e →
      (cm.send env w client data).2.2 = .error (.transportError e)) := by
  constructor
  · intro h
    simp [ConnectionManager.send, h]
  · intro ws e h1 h2
    simp [ConnectionManager.send, h1, WebSocket.send_text, h2]

/-- Witness for C3 at a concrete absent identity. -/
theorem send_absent_vs_transport_witness :
    (ConnectionManager.mk []).send ⟨fun _ => none, fun _ => none⟩ ⟨[], []⟩
        (.oid 5) (.text "x")
      = (ConnectionManager.mk [], ⟨[], []⟩, .error (.lookupError 5 5)) :=
  (send_absent_vs_transport (ConnectionManager.mk []) ⟨fun _ => none, fun _ => none⟩
    ⟨[], []⟩ (.oid 5) (.text "x")).1 rfl

/-- C8 auxiliary: the replay invariant — pointwise-equal membership and
distinct keys — is preserved by every operation, and failures coincide. -/
theorem replay_netReplay_aux :
    ∀ (ops : List Op) (cm : ConnectionManager) (m : Nat → Option WebSocket),
    (∀ k, dictGet k cm.connections = m k) →
    (cm.connections.map Prod.fst).Nodup →
    agrees (replay cm ops) (netReplay m ops) := by
  intro ops
  induction ops with
  | nil => intro cm m h hnd; exact ⟨h, hnd⟩
  | cons op rest ih =>
      intro cm m h hnd
      cases op with
      | reg u ws =>
          simp only [replay, netReplay, netApply]
          apply ih
          · intro k
            by_cases hk : k = u.id
            · subst hk
              simp [ConnectionManager.add_connection, dictGet_dictInsert_self]
            · simp only [ConnectionManager.add_connection]
              rw [dictGet_dictInsert_ne u.id k ws cm.connections (Ne.symm hk)]
              simp [h k, hk]
          · exact nodup_dictInsert u.id ws cm.connections hnd
      | unreg u =>
          have hu := h u.id
          cases hget : dictGet u.id cm.connections with
          | none =>
              rw [hget] at hu
              simp only [replay, ConnectionManager.remove_connection, hget, netReplay,
                netApply, ← hu]
              rfl
          | some ws =>
              rw [hget] at hu
              simp only [replay, ConnectionManager.remove_connection, hget, netReplay,
                netApply, ← hu]
              apply ih
              · intro k
                rw [dictGet_dictDel u.id k cm.connections hnd]
                by_cases hk : k = u.id
                · subst hk; simp
                · simp [hk, Ne.symm hk, h k]
              · exact nodup_dictDel u.id cm.connections hnd

/-- C8: replaying any finite sequence of register/unregister operations
from the empty registry through `add_connection`/`remove_connection`
agrees with the net-effect reference semantics: register inserts or
overwrites the single entry for the identity (last write wins, at most
one entry per identity), unregister removes the entry or fails if the
identity is absent, and the two replays fail together with one same
error. -/
theorem replay_matches_net_effect (ops : List Op) :
    agrees (replay ConnectionManager.empty ops) (netReplay (fun _ => none) ops) :=
  replay_netReplay_aux ops ConnectionManager.empty (fun _ => none)
    (fun _ => rfl) List.nodup_nil

/-- C9: `send`, `broadcast` and `personal_broadcast` never mutate the
registry: the connections map of the resulting state is the input one,
for every environment, client, payload, exclusion, payload factory and
recipient mapping — success or failure alike. -/
theorem delivery_ops_preserve_registry (cm : ConnectionManager) (env : Env) (w : World)
    (client : Client) (data : Payload) (exclude : Option User)
    (f : PlayerData → Payload) (pm : List (Nat × PlayerData)) :
    (cm.send env w client data).1 = cm
  ∧ (cm.broadcast env w data exclude).1 = cm
  ∧ (cm.personal_broadcast env w f pm).1 = cm := by
  refine ⟨?_, ?_, ?_⟩
  · cases h : dictGet client.resolveId cm.connections with
    | none => simp [ConnectionManager.send, h]
    | some ws =>
        cases hb : env.sendBeh ws.sockId <;>
          simp [ConnectionManager.send, h, WebSocket.send_text, hb]
  · rw [ConnectionManager.broadcast_unfold]
  · cases hb : ConnectionManager.buildArgs f pm cm.connections with
    | error e =>
        simp [ConnectionManager.personal_broadcast_of_buildArgs_err cm env w f pm e hb]
    | ok args =>
        simp [ConnectionManager.personal_broadcast_of_buildArgs_ok cm env w f pm args hb]

/-- C10: `broadcast` on the empty registry, and `broadcast` where every
registered identity is excluded, succeed without error and perform zero
channel writes. -/
theorem broadcast_vacuous (cm : ConnectionManager) (env : Env) (w : World)
    (data : Payload) (x : User)
    (hall : ∀ kv ∈ cm.connections, kv.1 = x.id) :
    cm.broadcast env w data (some x) = (cm, w, .ok ())
  ∧ ConnectionManager.empty.broadcast env w data none
      = (ConnectionManager.empty, w, .ok ()) := by
  constructor
  · rw [ConnectionManager.broadcast_unfold]
    have hfilter : cm.connections.filter
        (fun kv => ¬ kv.1 ∈ ConnectionManager.excludeIdsOf (some x)) = [] := by
      rw [List.filter_eq_nil_iff]
      intro kv hkv
      simp [ConnectionManager.excludeIdsOf, hall kv hkv]
    rw [hfilter]
    simp [ConnectionManager.firstErr]
  · rw [ConnectionManager.broadcast_unfold]
    simp [ConnectionManager.empty, ConnectionManager.firstErr]

/-- Witness for C10 with one registered identity, that one excluded. -/
theorem broadcast_vacuous_witness :
    (ConnectionManager.mk [(1, ⟨10⟩)]).broadcast ⟨fun _ => none, fun _ => none⟩
        ⟨[], []⟩ (.text "x") (some ⟨1, "A"⟩)
      = (ConnectionManager.mk [(1, ⟨10⟩)], ⟨[], []⟩, .ok ()) :=
  (broadcast_vacuous (ConnectionManager.mk [(1, ⟨10⟩)]) ⟨fun _ => none, fun _ => none⟩
    ⟨[], []⟩ (.text "x") ⟨1, "A"⟩ (by decide)).1

/-- C2 counterexample: two broadcasts over identities \x7b1, 2\x7d, each with
exactly one failing send — identity 1's socket in the first scenario,
identity 2's in the second. In both, the other identity is delivered,
but the aggregate result is the identical propagated transport error:
the reported failure carries no information identifying WHICH identity
failed, refuting "reporting enough information to identify the failed
identity". (`gather(..., return_exceptions=False)` re-raises the failing
send's exception verbatim.) -/
theorem broadcast_failure_anonymous_counterexample :
    ((ConnectionManager.mk [(1, ⟨10⟩), (2, ⟨20⟩)]).broadcast
        ⟨fun n => if n = 10 then some (.terr "boom") else none, fun _ => none⟩
        ⟨[], []⟩ (.text "hi") none).2.1.sendLog
      = [(10, .str "hi", false), (20, .str "hi", true)]
  ∧ ((ConnectionManager.mk [(1, ⟨10⟩), (2, ⟨20⟩)]).broadcast
        ⟨fun n => if n = 20 then some (.terr "boom") else none, fun _ => none⟩
        ⟨[], []⟩ (.text "hi") none).2.1.sendLog
      = [(10, .str "hi", true), (20, .str "hi", false)]
  ∧ ((ConnectionManager.mk [(1, ⟨10⟩), (2, ⟨20⟩)]).broadcast
        ⟨fun n => if n = 10 then some (.terr "boom") else none, fun _ => none⟩
        ⟨[], []⟩ (.text "hi") none).2.2
      = ((ConnectionManager.mk [(1, ⟨10⟩), (2, ⟨20⟩)]).broadcast
        ⟨fun n => if n = 20 then some (.terr "boom") else none, fun _ => none⟩
        ⟨[], []⟩ (.text "hi") none).2.2
  ∧ ((ConnectionManager.mk [(1, ⟨10⟩), (2, ⟨20⟩)]).broadcast
        ⟨fun n => if n = 10 then some (.terr "boom") else none, fun _ => none⟩
        ⟨[], []⟩ (.text "hi") none).2.2
      = .error (.transportError (.terr "boom")) :=
  ⟨rfl, rfl, rfl, rfl⟩

/-- C2 (amended): with exactly one failing send among the N registered
identities, the other N−1 identities still receive the payload (sibling
tasks are not cancelled), and the broadcast fails by propagating the
failing send's transport error verbatim — which does not necessarily
identify the failed identity. -/
theorem broadcast_single_failure (cm : ConnectionManager) (env : Env) (w : World)
    (data : Payload) (bad : Nat) (wsb : WebSocket) (e : TErr)
    (hnd : (cm.connections.map Prod.fst).Nodup)
    (hbad : dictGet bad cm.connections = some wsb)
    (hfail : env.sendBeh wsb.sockId = some e)
    (hok : ∀ kv ∈ cm.connections, kv.1 ≠ bad → env.sendBeh kv.2.sockId = none) :
    (cm.broadcast env w data none).2.2 = .error (.transportError e)
  ∧ ∀ kv ∈ cm.connections, kv.1 ≠ bad →
      (kv.2.sockId, data.encode, true) ∈ (cm.broadcast env w data none).2.1.sendLog := by
  have hfilter : cm.connections.filter
      (fun kv => ¬ kv.1 ∈ ConnectionManager.excludeIdsOf none) = cm.connections := by
    rw [List.filter_eq_self]
    intro kv _
    simp [ConnectionManager.excludeIdsOf]
  constructor
  · simp only [ConnectionManager.broadcast_unfold, hfilter]
    rw [map_sendOutcome cm env cm.connections hnd (fun _ hkv => hkv)]
    apply firstErr_error
    · intro r hr
      obtain ⟨kv, hkv, rfl⟩ := List.mem_map.mp hr
      by_cases hkb : kv.1 = bad
      · have hws : kv.2 = wsb := by
          have hg := dictGet_of_mem_nodup kv.1 kv.2 cm.connections hnd hkv
          rw [hkb, hbad] at hg
          exact (Option.some.injEq _ _ ▸ hg).symm
        right
        rw [hws, hfail]
      · left
        rw [hok kv hkv hkb]
    · refine List.mem_map.mpr ⟨(bad, wsb), mem_of_dictGet bad wsb cm.connections hbad, ?_⟩
      rw [hfail]
  · intro kv hkv hkb
    simp only [ConnectionManager.broadcast_unfold, hfilter]
    rw [flatMap_sendEntry cm env data cm.connections hnd (fun _ hk => hk)]
    exact List.mem_append.mpr (Or.inr (List.mem_map.mpr ⟨kv, hkv,
      by simp [hok kv hkv hkb]⟩))

/-- Witness for C2 (amended) at the concrete first scenario of the
counterexample. -/
theorem broadcast_single_failure_witness :
    ((ConnectionManager.mk [(1, ⟨10⟩), (2, ⟨20⟩)]).broadcast
        ⟨fun n => if n = 10 then some (.terr "boom") else none, fun _ => none⟩
        ⟨[], []⟩ (.text "hi") none).2.2
      = .error (.transportError (.terr "boom")) :=
  (broadcast_single_failure (ConnectionManager.mk [(1, ⟨10⟩), (2, ⟨20⟩)])
    ⟨fun n => if n = 10 then some (.terr "boom") else none, fun _ => none⟩
    ⟨[], []⟩ (.text "hi") 1 ⟨10⟩ (.terr "boom")
    (by decide) rfl rfl (by decide)).1

/-- C4 counterexample: a payload that is neither text nor a structured
record (`.other`, standing for any value outside the `str | dict |
BaseModel` annotation, which Python does not enforce) is passed through
to the channel write unvalidated: the write happens and the call
succeeds, refuting "fails with InvalidPayload before any network
activity" — no such check exists in `send`. -/
theorem send_no_invalid_payload_counterexample :
    (ConnectionManager.mk [(1, ⟨10⟩)]).send ⟨fun _ => none, fun _ => none⟩
        ⟨[], []⟩ (.oid 1) (.other (.obj 7))
      = (ConnectionManager.mk [(1, ⟨10⟩)], ⟨[(10, .obj 7, true)], []⟩, .ok ()) :=
  rfl

/-- C4 (amended): on a registered identity with a healthy transport, a
text payload reaches the channel write byte-identical; a `dict` payload
reaches it as its deterministic `json.dumps` serialization; a model
payload as its deterministic `.json()` serialization; and a payload of
any other shape is passed to the write unvalidated — `send` performs no
payload-shape check and raises no `InvalidPayload`. -/
theorem send_encoding (cm : ConnectionManager) (env : Env) (w : World)
    (client : Client) (ws : WebSocket)
    (h : dictGet client.resolveId cm.connections = some ws)
    (hok : env.sendBeh ws.sockId = none) :
    (∀ s, (cm.send env w client (.text s)).2.1.sendLog
        = w.sendLog ++ [(ws.sockId, .str s, true)])
  ∧ (∀ fields, (cm.send env w client (.dict fields)).2.1.sendLog
        = w.sendLog ++ [(ws.sockId, .str (JsonVal.dumps (.obj fields)), true)])
  ∧ (∀ m, (cm.send env w client (.model m)).2.1.sendLog
        = w.sendLog ++ [(ws.sockId, .str m.json, true)])
  ∧ (∀ v, (cm.send env w client (.other v)).2.1.sendLog
        = w.sendLog ++ [(ws.sockId, v, true)]) := by
  refine ⟨?_, ?_, ?_, ?_⟩ <;> intro x <;>
    simp [ConnectionManager.send, h, WebSocket.send_text, hok, Payload.encode]

/-- Witness for C4 (amended): a concrete text payload passes through
unchanged. -/
theorem send_encoding_witness :
    ((ConnectionManager.mk [(1, ⟨10⟩)]).send ⟨fun _ => none, fun _ => none⟩
        ⟨[], []⟩ (.oid 1) (.text "hello")).2.1.sendLog
      = [(10, .str "hello", true)] :=
  (send_encoding (ConnectionManager.mk [(1, ⟨10⟩)]) ⟨fun _ => none, fun _ => none⟩
    ⟨[], []⟩ (.oid 1) ⟨10⟩ rfl rfl).1 "hello"

/-- C5 counterexample: `personal_broadcast` with identity 1 registered
but absent from `player_mapping` fails with the plain `KeyError` raised
by the mapping subscript during eager argument evaluation — the very
same generic lookup-miss error value that `remove_connection` on an
absent identity raises — not a dedicated `MissingContext` error kind
(the code defines none), and performs zero sends. -/
theorem personal_broadcast_keyerror_counterexample :
    (ConnectionManager.mk [(1, ⟨10⟩)]).personal_broadcast
        ⟨fun _ => none, fun _ => none⟩ ⟨[], []⟩ (fun pd => .text pd.ctx) []
      = (ConnectionManager.mk [(1, ⟨10⟩)], ⟨[], []⟩, .error (.keyError 1))
  ∧ (ConnectionManager.mk []).remove_connection ⟨1, "A"⟩ = .error (.keyError 1) :=
  ⟨rfl, rfl⟩

/-- C5 (amended): whenever some registered identity is absent from the
caller-supplied `player_mapping`, `personal_broadcast` fails with the
generic `KeyError` of (the first) such identity, raised before any send
is dispatched, leaving the transport history untouched. -/
theorem personal_broadcast_missing_ctx (cm : ConnectionManager) (env : Env)
    (w : World) (f : PlayerData → Payload) (pm : List (Nat × PlayerData))
    (hmiss : ∃ kv ∈ cm.connections, pmGet kv.1 pm = none) :
    ∃ c, c ∈ cm.connections.map Prod.fst ∧ pmGet c pm = none ∧
      cm.personal_broadcast env w f pm = (cm, w, .error (.keyError c)) := by
  obtain ⟨c, hc1, hc2, heq⟩ := ConnectionManager.buildArgs_err f pm cm.connections hmiss
  exact ⟨c, hc1, hc2,
    ConnectionManager.personal_broadcast_of_buildArgs_err cm env w f pm _ heq⟩

/-- Witness for C5 (amended) at a concrete registry and empty mapping. -/
theorem personal_broadcast_missing_ctx_witness :
    ∃ c, c ∈ (ConnectionManager.mk [(1, ⟨10⟩)]).connections.map Prod.fst ∧
      pmGet c [] = none ∧
      (ConnectionManager.mk [(1, ⟨10⟩)]).personal_broadcast
          ⟨fun _ => none, fun _ => none⟩ ⟨[], []⟩ (fun pd => .text pd.ctx) []
        = (ConnectionManager.mk [(1, ⟨10⟩)], ⟨[], []⟩, .error (.keyError c)) :=
  personal_broadcast_missing_ctx (ConnectionManager.mk [(1, ⟨10⟩)])
    ⟨fun _ => none, fun _ => none⟩ ⟨[], []⟩ (fun pd => .text pd.ctx) []
    ⟨(1, ⟨10⟩), by decide, rfl⟩

/-- C6: over a distinct-keyed registry of N identities, `broadcast`
with no exclusion issues exactly N sends (the transport log grows by N
attempted writes, one per identity); with a registered identity
excluded it issues exactly N−1 sends, and — when no other identity
shares the excluded identity's socket — none of the issued writes
targets the excluded identity's channel. -/
theorem broadcast_counts (cm : ConnectionManager) (env : Env) (w : World)
    (data : Payload) (x : User) (wsx : WebSocket)
    (hnd : (cm.connections.map Prod.fst).Nodup)
    (hx : dictGet x.id cm.connections = some wsx)
    (hinj : ∀ kv ∈ cm.connections, kv.1 ≠ x.id → kv.2.sockId ≠ wsx.sockId) :
    ((cm.broadcast env w data none).2.1.sendLog.length
        = w.sendLog.length + cm.connections.length)
  ∧ ((cm.broadcast env w data (some x)).2.1.sendLog.length + 1
        = w.sendLog.length + cm.connections.length)
  ∧ (∀ entry ∈ (cm.broadcast env w data (some x)).2.1.sendLog.drop w.sendLog.length,
        entry.1 ≠ wsx.sockId) := by
  have hfilter0 : cm.connections.filter
      (fun kv => ¬ kv.1 ∈ ConnectionManager.excludeIdsOf none) = cm.connections := by
    rw [List.filter_eq_self]
    intro kv _
    simp [ConnectionManager.excludeIdsOf]
  have hfilter1 : cm.connections.filter
      (fun kv => ¬ kv.1 ∈ ConnectionManager.excludeIdsOf (some x))
      = cm.connections.filter (fun kv => decide (kv.1 ≠ x.id)) := by
    apply List.filter_congr
    intro kv _
    simp [ConnectionManager.excludeIdsOf]
  have hsubf : ∀ kv ∈ cm.connections.filter (fun kv => decide (kv.1 ≠ x.id)),
      kv ∈ cm.connections := fun kv hkv => (List.mem_filter.mp hkv).1
  have hxmem : x.id ∈ cm.connections.map Prod.fst :=
    List.mem_map.mpr ⟨(x.id, wsx), mem_of_dictGet x.id wsx cm.connections hx, rfl⟩
  refine ⟨?_, ?_, ?_⟩
  · simp only [ConnectionManager.broadcast_unfold, hfilter0]
    rw [flatMap_sendEntry cm env data cm.connections hnd (fun _ hk => hk)]
    simp
  · simp only [ConnectionManager.broadcast_unfold, hfilter1]
    rw [flatMap_sendEntry cm env data _ hnd hsubf]
    simp only [List.length_append, List.length_map]
    have := length_filter_keys_ne x.id cm.connections hnd hxmem
    omega
  · simp only [ConnectionManager.broadcast_unfold, hfilter1]
    rw [flatMap_sendEntry cm env data _ hnd hsubf, List.drop_left]
    intro entry hentry
    obtain ⟨kv, hkv, rfl⟩ := List.mem_map.mp hentry
    have hkvne : kv.1 ≠ x.id := by simpa using (List.mem_filter.mp hkv).2
    exact hinj kv (List.mem_filter.mp hkv).1 hkvne

/-- Witness for C6 at a two-identity registry: the unexcluded broadcast
writes twice. -/
theorem broadcast_counts_witness :
    ((ConnectionManager.mk [(1, ⟨10⟩), (2, ⟨20⟩)]).broadcast
        ⟨fun _ => none, fun _ => none⟩ ⟨[], []⟩ (.text "hi") none).2.1.sendLog.length
      = 2 :=
  (broadcast_counts (ConnectionManager.mk [(1, ⟨10⟩), (2, ⟨20⟩)])
    ⟨fun _ => none, fun _ => none⟩ ⟨[], []⟩ (.text "hi") ⟨2, "B"⟩ ⟨20⟩
    (by decide) rfl (by decide)).1

/-- C7: over a distinct-keyed registry whose every identity has a
context in `player_mapping` (and no two identities share a socket),
`personal_broadcast` issues one send per identity carrying exactly the
payload computed from that identity's own context: the transport log
grows by the per-identity map, each identity with a context receives
its own computed payload, and every write targeted at an identity's
socket carries that identity's payload — never another's. -/
theorem personal_broadcast_own_payload (cm : ConnectionManager) (env : Env)
    (w : World) (f : PlayerData → Payload) (pm : List (Nat × PlayerData))
    (hnd : (cm.connections.map Prod.fst).Nodup)
    (hall : ∀ kv ∈ cm.connections, (pmGet kv.1 pm).isSome)
    (hsock : ∀ kv1 ∈ cm.connections, ∀ kv2 ∈ cm.connections,
        kv1.2.sockId = kv2.2.sockId → kv1.1 = kv2.1) :
    ((cm.personal_broadcast env w f pm).2.1.sendLog
        = w.sendLog ++ cm.connections.map (fun kv => (kv.2.sockId, (f (pmLookup pm kv.1)).encode, (env.sendBeh kv.2.sockId).isNone)))
  ∧ (∀ kv ∈ cm.connections, ∀ pd, pmGet kv.1 pm = some pd →
        (kv.2.sockId, (f pd).encode, (env.sendBeh kv.2.sockId).isNone)
          ∈ (cm.personal_broadcast env w f pm).2.1.sendLog)
  ∧ (∀ kv ∈ cm.connections,
      ∀ entry ∈ (cm.personal_broadcast env w f pm).2.1.sendLog.drop w.sendLog.length,
        entry.1 = kv.2.sockId → entry.2.1 = (f (pmLookup pm kv.1)).encode) := by
  have hargs := ConnectionManager.buildArgs_ok f pm cm.connections hall
  have hpb := ConnectionManager.personal_broadcast_of_buildArgs_ok cm env w f pm _ hargs
  have hlog : (cm.personal_broadcast env w f pm).2.1.sendLog
      = w.sendLog ++ cm.connections.map (fun kv => (kv.2.sockId, (f (pmLookup pm kv.1)).encode, (env.sendBeh kv.2.sockId).isNone)) := by
    simp only [hpb]
    rw [flatMap_sendEntry_perTarget cm env (fun kv => f (pmLookup pm kv.1))
      cm.connections hnd (fun _ hk => hk)]
  refine ⟨hlog, ?_, ?_⟩
  · intro kv hkv pd hpd
    rw [hlog]
    have hlu : pmLookup pm kv.1 = pd := by simp [pmLookup, hpd]
    exact List.mem_append.mpr (Or.inr (List.mem_map.mpr ⟨kv, hkv, by rw [hlu]⟩))
  · intro kv hkv entry hentry h1
    rw [hlog, List.drop_left] at hentry
    obtain ⟨kv', hkv', rfl⟩ := List.mem_map.mp hentry
    have hkeq : kv'.1 = kv.1 := hsock kv' hkv' kv hkv h1
    simp [hkeq]

/-- Witness for C7 at two identities with distinct contexts: each
receives its own payload. -/
theorem personal_broadcast_own_payload_witness :
    ((ConnectionManager.mk [(1, ⟨10⟩), (2, ⟨20⟩)]).personal_broadcast
        ⟨fun _ => none, fun _ => none⟩ ⟨[], []⟩ (fun pd => .text pd.ctx)
        [(1, ⟨1, "a"⟩), (2, ⟨2, "b"⟩)]).2.1.sendLog
      = [(10, .str "a", true), (20, .str "b", true)] :=
  (personal_broadcast_own_payload (ConnectionManager.mk [(1, ⟨10⟩), (2, ⟨20⟩)])
    ⟨fun _ => none, fun _ => none⟩ ⟨[], []⟩ (fun pd => .text pd.ctx)
    [(1, ⟨1, "a"⟩), (2, ⟨2, "b"⟩)] (by decide) (by decide) (by decide)).1

end DiceBe
